import Mathlib

/-!
Verification of the QuickReceipt receipt-tracking application core:
the image normalizer, the extraction route, the receipt store append
path, the analytics aggregator and the export serializer, embedded
shallowly from the TypeScript sources
(src/app/dashboard/page.tsx and src/app/api/scan/route.ts).

Modelling conventions:
- JS numbers are modelled as rationals; timestamps in milliseconds as
  integers.
- A JS object with string keys is modelled as an insertion-ordered
  association list; objSet replaces the value in place when the key is
  present and appends otherwise, matching JS property assignment for
  non-index string keys, whose enumeration order is insertion order.
- The host primitive `new Date(string).getTime()` is modelled by an
  explicit parameter parse : String -> Option Int; none stands for an
  Invalid Date, whose NaN value makes every comparison false, so such
  records fall out of every window filter exactly as in the source.
-/

namespace QuickReceipt

/-- The ReceiptData interface (dashboard/page.tsx lines 8-15). -/
structure ReceiptData where
  merchantName : String
  date : String
  totalAmount : ℚ
  category : String
  items : Option (List String) := none
  location : Option String := none
  deriving Repr, DecidableEq

/-- The SavedReceipt interface (dashboard/page.tsx lines 17-20). -/
structure SavedReceipt extends ReceiptData where
  id : String
  timestamp : String
  deriving Repr, DecidableEq

/-! ### Image Normalizer (optimizeImage, dashboard/page.tsx lines 49-83) -/

/-- What decoding the selected file yields: either a raster image with
its dimensions, or no image at all (a corrupt file the host cannot
decode, for which img.onload never fires). -/
inductive ImageSource where
  | decoded (width height : ℚ)
  | undecodable
  deriving Repr, DecidableEq

/-- The three ways a JS promise can stand: settled with a value,
settled with an error, or never settled at all. -/
inductive PromiseState (α : Type) where
  | resolved (a : α)
  | rejected (msg : String)
  | pending
  deriving Repr, DecidableEq

/-- The resize arithmetic of optimizeImage (lines 56-71): clamp the
longer edge to 1200 preserving the aspect ratio, leave smaller images
unchanged.  Returns the width and height handed to the canvas. -/
def resizeDims (w h : ℚ) : ℚ × ℚ :=
  let maxSize : ℚ := 1200
  if w > h then
    if w > maxSize then (maxSize, h * (maxSize / w)) else (w, h)
  else
    if h > maxSize then (w * (maxSize / h), maxSize) else (w, h)

/-- optimizeImage as a whole: the promise executor installs only an
img.onload handler that resolves with the re-encoded payload (modelled
by its dimensions); there is no onerror handler and no reject call, so
an undecodable source leaves the promise pending forever. -/
def optimizeImage : ImageSource → PromiseState (ℚ × ℚ)
  | .decoded w h => .resolved (resizeDims w h)
  | .undecodable => .pending

/-! ### JS objects as insertion-ordered association lists -/

/-- Property lookup on a JS object literal. -/
def objGet? {α : Type} : List (String × α) → String → Option α
  | [], _ => none
  | (k, v) :: rest, c => if k = c then some v else objGet? rest c

/-- Property assignment on a JS object literal: overwrite in place when
the key is present, append otherwise. -/
def objSet {α : Type} : List (String × α) → String → α → List (String × α)
  | [], c, v => [(c, v)]
  | (k, w) :: rest, c, v =>
      if k = c then (c, v) :: rest else (k, w) :: objSet rest c v

/-- The keys of a JS object, in enumeration order. -/
def objKeys {α : Type} (l : List (String × α)) : List String :=
  l.map Prod.fst

/-! ### Analytics Aggregator (calculateAnalytics, lines 221-252) -/

/-- The reduce over amounts used for every sum in the dashboard:
xs.reduce((sum, r) => sum + r.totalAmount, 0). -/
def sumAmounts (rs : List SavedReceipt) : ℚ :=
  rs.foldl (fun sum r => sum + r.totalAmount) 0

/-- The filter predicate new Date(r.date) >= cutoff.  An unparsable
date gives NaN, and NaN >= cutoff is false, hence the none branch. -/
def dateGe (parse : String → Option Int) (cutoff : Int) (r : SavedReceipt) : Bool :=
  match parse r.date with
  | some t => decide (cutoff ≤ t)
  | none => false

/-- One step of the categoryTotals reduce (lines 240-243):
acc[r.category] = (acc[r.category] || 0) + r.totalAmount. -/
def catStep (acc : List (String × ℚ)) (r : SavedReceipt) : List (String × ℚ) :=
  objSet acc r.category ((objGet? acc r.category).getD 0 + r.totalAmount)

/-- The category breakdown object built by calculateAnalytics. -/
def categoryTotals (rs : List SavedReceipt) : List (String × ℚ) :=
  rs.foldl catStep []

/-- One step of the merchantCounts reduce (lines 246-249):
acc[r.merchantName] = (acc[r.merchantName] || 0) + 1. -/
def merchStep (acc : List (String × ℚ)) (r : SavedReceipt) : List (String × ℚ) :=
  objSet acc r.merchantName ((objGet? acc r.merchantName).getD 0 + 1)

/-- The merchant visit counts object built by calculateAnalytics. -/
def merchantCounts (rs : List SavedReceipt) : List (String × ℚ) :=
  rs.foldl merchStep []

/-- The record returned by calculateAnalytics (line 251). -/
structure Analytics where
  weekly : ℚ
  monthly : ℚ
  yearly : ℚ
  categoryTotals : List (String × ℚ)
  merchantCounts : List (String × ℚ)
  deriving Repr, DecidableEq

/-- calculateAnalytics (lines 221-252), with the ambient clock and the
host date parser passed explicitly. -/
def calculateAnalytics (parse : String → Option Int) (now : Int)
    (savedReceipts : List SavedReceipt) : Analytics :=
  let oneWeekAgo : Int := now - 7 * 24 * 60 * 60 * 1000
  let oneMonthAgo : Int := now - 30 * 24 * 60 * 60 * 1000
  let oneYearAgo : Int := now - 365 * 24 * 60 * 60 * 1000
  { weekly := sumAmounts (savedReceipts.filter (dateGe parse oneWeekAgo))
    monthly := sumAmounts (savedReceipts.filter (dateGe parse oneMonthAgo))
    yearly := sumAmounts (savedReceipts.filter (dateGe parse oneYearAgo))
    categoryTotals := categoryTotals savedReceipts
    merchantCounts := merchantCounts savedReceipts }

/-- Math.round on a rational: round half toward positive infinity. -/
def jsRound (q : ℚ) : Int := ⌊q + 1 / 2⌋

/-- The Top Spending Category insight (line 649):
Object.keys(analytics.categoryTotals)[0] || N/A.  An absent first key,
or an empty-string first key, is falsy and yields the sentinel. -/
def topCategoryInsight (categoryTotals : List (String × ℚ)) : String :=
  match categoryTotals.head? with
  | none => "N/A"
  | some (c, _) => if c = "" then "N/A" else c

/-- The Shopping Frequency insight (line 672):
monthly > 0 ? Math.round(monthly / (total / count || 1)) : 0.
When count is 0 the JS quotient is NaN and NaN || 1 is 1; rational
division by zero gives 0 and the explicit 0-test restores the same 1. -/
def shoppingFrequency (parse : String → Option Int) (now : Int)
    (rs : List SavedReceipt) : Int :=
  let monthly := (calculateAnalytics parse now rs).monthly
  if 0 < monthly then
    let avgOr1 := let a := sumAmounts rs / (rs.length : ℚ); if a = 0 then 1 else a
    jsRound (monthly / avgOr1)
  else 0

/-! ### Export Serializer (exportToExcel, lines 255-290) -/

/-- A spreadsheet cell: the exported rows mix strings and numbers. -/
inductive Cell where
  | s (v : String)
  | q (v : ℚ)
  deriving Repr, DecidableEq

/-- The Receipts sheet rows (lines 262-267): one row per record, in
store order, with columns Date, Merchant, Category, Amount. -/
def receiptsRows (rs : List SavedReceipt) : List (List Cell) :=
  rs.map fun r => [Cell.s r.date, Cell.s r.merchantName, Cell.s r.category, Cell.q r.totalAmount]

/-- The Analytics sheet rows (lines 272-276): the three period totals. -/
def analyticsRows (parse : String → Option Int) (now : Int)
    (rs : List SavedReceipt) : List (List Cell) :=
  let analytics := calculateAnalytics parse now rs
  [[Cell.s "Weekly", Cell.q analytics.weekly],
   [Cell.s "Monthly", Cell.q analytics.monthly],
   [Cell.s "Yearly", Cell.q analytics.yearly]]

/-- The Categories sheet rows (lines 281-284): one row per entry of the
category-totals object. -/
def categoriesRows (rs : List SavedReceipt) : List (List Cell) :=
  (categoryTotals rs).map fun p => [Cell.s p.1, Cell.q p.2]

/-- exportToExcel (lines 255-290): the workbook as its ordered list of
named sheets, each a list of data rows (json_to_sheet additionally
emits a header row above them, an encoding detail below this model). -/
def exportToExcel (parse : String → Option Int) (now : Int)
    (rs : List SavedReceipt) : List (String × List (List Cell)) :=
  [("Receipts", receiptsRows rs),
   ("Analytics", analyticsRows parse now rs),
   ("Categories", categoriesRows rs)]

/-! ### Receipt Extraction route (api/scan/route.ts) and upload path -/

/-- A JSON value appearing as a field of the parsed service response. -/
inductive JVal where
  | str (s : String)
  | num (q : ℚ)
  | arr (xs : List String)
  deriving Repr, DecidableEq

/-- What the external extraction call hands the route: the call itself
may throw, the message content may be absent, and a present content
string either fails JSON.parse or parses to an object with fields.
This is the boundary of the host JSON parser, given as input. -/
inductive AiContent where
  | serviceFailure
  | empty
  | notJson (raw : String)
  | jsonObj (fields : List (String × JVal))
  deriving Repr, DecidableEq

/-- An HTTP response of the scan route: status plus JSON body fields. -/
structure RouteResponse where
  status : Nat
  body : List (String × JVal)
  deriving Repr, DecidableEq

/-- POST of api/scan/route.ts (lines 8-58).  Note that a body that
parses to an object is returned verbatim with status 200: no check of
the required fields merchantName, date, totalAmount, category. -/
def routePOST (imageProvided : Bool) (content : AiContent) : RouteResponse :=
  if !imageProvided then
    ⟨400, [("error", JVal.str "No image provided")]⟩
  else
    match content with
    | .serviceFailure => ⟨500, [("error", JVal.str "Failed to process receipt")]⟩
    | .empty => ⟨500, [("error", JVal.str "No response from AI")]⟩
    | .notJson _ => ⟨500, [("error", JVal.str "Invalid JSON response from AI")]⟩
    | .jsonObj fields => ⟨200, fields⟩

/-- A stored receipt as the upload path actually builds it (line 114):
the spread of the response body plus id and timestamp.  Fields the
body lacks are simply absent (undefined in JS). -/
structure RawSaved where
  id : String
  timestamp : String
  merchantName : Option JVal
  date : Option JVal
  totalAmount : Option JVal
  category : Option JVal
  deriving Repr, DecidableEq

/-- The store interaction of handleImageUpload (lines 101-131): when
the response is ok (status 200-299) the parsed body is spread into a
new record appended to the store; otherwise the thrown error is caught
and only the user-facing message is set, the store untouched. -/
def handleImageUpload (store : List RawSaved) (resp : RouteResponse)
    (idStr ts : String) : List RawSaved × Option String :=
  if 200 ≤ resp.status ∧ resp.status ≤ 299 then
    (store ++ [{ id := idStr, timestamp := ts,
                 merchantName := objGet? resp.body "merchantName",
                 date := objGet? resp.body "date",
                 totalAmount := objGet? resp.body "totalAmount",
                 category := objGet? resp.body "category" }], none)
  else
    (store, some "Failed to scan receipt. Please try again.")

/-! ### Receipt Store append lifetime (lines 113-122) -/

/-- The record construction of lines 114-118: the extracted data plus
id := Date.now().toString() and the ISO timestamp.  Date.now() is the
non-negative millisecond clock, rendered in decimal by Nat.repr. -/
def appendReceipt (store : List SavedReceipt) (data : ReceiptData)
    (nowMs : Nat) (isoTs : String) : List SavedReceipt :=
  store ++ [{ toReceiptData := data, id := Nat.repr nowMs, timestamp := isoTs }]

/-- A whole store lifetime: the sequence of appends, each with the
extracted data, the Date.now() instant and the ISO timestamp seen at
that append. -/
def appendRun (events : List (ReceiptData × Nat × String)) : List SavedReceipt :=
  events.foldl (fun st e => appendReceipt st e.1 e.2.1 e.2.2) []

/-! ### Spec-side comparator definitions

These follow the wording of the specification, not the source, and
exist to be proved equal to the source-derived definitions above. -/

/-- Spec wording for a windowed sum: the sum of totalAmount over the
records whose date parses and lies on or after the cutoff; a record
with an unparsable date contributes nothing. -/
def specWindowSum (parse : String → Option Int) (cutoff : Int)
    (rs : List SavedReceipt) : ℚ :=
  (rs.map fun r =>
    match parse r.date with
    | some t => if cutoff ≤ t then r.totalAmount else 0
    | none => 0).sum

/-- Spec wording for a category total: the summed totalAmount of the
records carrying that category. -/
def specCatSum (rs : List SavedReceipt) (c : String) : ℚ :=
  ((rs.filter fun r => r.category = c).map fun r => r.totalAmount).sum

/-- Spec wording for the average purchase: sum of all totalAmount
divided by the record count (0 when the count is 0). -/
def specAveragePurchase (rs : List SavedReceipt) : ℚ :=
  (rs.map fun r => r.totalAmount).sum / (rs.length : ℚ)

/-- Spec wording for the shopping-frequency estimate:
round(monthly / averagePurchase) when the average purchase is positive,
0 otherwise. -/
def specShoppingFrequency (parse : String → Option Int) (now : Int)
    (rs : List SavedReceipt) : Int :=
  let avg := specAveragePurchase rs
  if 0 < avg then
    jsRound ((calculateAnalytics parse now rs).monthly / avg)
  else 0

/-! ### Decimal decoding, to invert Nat.repr -/

/-- The numeric value of a decimal digit character (10 otherwise). -/
def decChar (c : Char) : Nat :=
  if c = '0' then 0 else if c = '1' then 1 else if c = '2' then 2
  else if c = '3' then 3 else if c = '4' then 4 else if c = '5' then 5
  else if c = '6' then 6 else if c = '7' then 7 else if c = '8' then 8
  else if c = '9' then 9 else 10

/-- The numeric value of a big-endian decimal digit string. -/
def decList : List Char → Nat
  | [] => 0
  | c :: cs => decChar c * 10 ^ cs.length + decList cs

/-! ### Concrete inputs used by the counterexamples and evaluations -/

/-- A date parser for concrete evaluations: every date string reads as
the epoch instant. -/
def parseAtEpoch : String → Option Int := fun _ => some 0

/-- Two records: first category Food with a small total, then category
Transport with a far larger one. -/
def c1Receipts : List SavedReceipt :=
  [{ merchantName := "Alpha Mart", date := "2024-01-01", totalAmount := 1,
     category := "Food", id := "1", timestamp := "t1" },
   { merchantName := "Beta Shop", date := "2024-01-02", totalAmount := 100,
     category := "Transport", id := "2", timestamp := "t2" }]

/-- One sample extraction result. -/
def sampleData : ReceiptData :=
  { merchantName := "Alpha Mart", date := "2024-01-01", totalAmount := 5,
    category := "Food" }

/-- One sample stored receipt. -/
def sampleSaved : SavedReceipt :=
  { merchantName := "Alpha Mart", date := "2024-01-01", totalAmount := 5,
    category := "Food", id := "1", timestamp := "t1" }

end QuickReceipt

namespace QuickReceipt

/-! ### Helper lemmas: folded sums -/

theorem foldl_add_amounts (rs : List SavedReceipt) (a : ℚ) :
    rs.foldl (fun sum r => sum + r.totalAmount) a
      = a + (rs.map fun r => r.totalAmount).sum := by
  induction rs generalizing a with
  | nil => simp
  | cons r t ih => simp [List.foldl_cons, ih, add_assoc]

theorem sumAmounts_eq (rs : List SavedReceipt) :
    sumAmounts rs = (rs.map fun r => r.totalAmount).sum := by
  simpa [sumAmounts] using foldl_add_amounts rs 0

theorem specWindowSum_nil (parse : String → Option Int) (cutoff : Int) :
    specWindowSum parse cutoff [] = 0 := rfl

theorem specWindowSum_cons (parse : String → Option Int) (cutoff : Int)
    (r : SavedReceipt) (t : List SavedReceipt) :
    specWindowSum parse cutoff (r :: t)
      = (if dateGe parse cutoff r then r.totalAmount else 0)
        + specWindowSum parse cutoff t := by
  simp only [specWindowSum, List.map_cons, List.sum_cons]
  congr 1
  unfold dateGe
  cases parse r.date with
  | none => simp
  | some tv => by_cases h : cutoff ≤ tv <;> simp [h]

theorem windowSum_eq (parse : String → Option Int) (cutoff : Int)
    (rs : List SavedReceipt) :
    sumAmounts (rs.filter (dateGe parse cutoff)) = specWindowSum parse cutoff rs := by
  induction rs with
  | nil => simp [sumAmounts, specWindowSum]
  | cons r t ih =>
    rw [specWindowSum_cons]
    by_cases h : dateGe parse cutoff r
    · rw [List.filter_cons_of_pos h, if_pos h]
      rw [sumAmounts_eq] at ih ⊢
      simp [ih]
    · rw [List.filter_cons_of_neg h, if_neg h, ih]
      simp

theorem dateGe_mono (parse : String → Option Int) {cut1 cut2 : Int}
    (hc : cut2 ≤ cut1) (r : SavedReceipt) (h : dateGe parse cut1 r = true) :
    dateGe parse cut2 r = true := by
  unfold dateGe at h ⊢
  cases hp : parse r.date with
  | none => rw [hp] at h; exact absurd h (by simp)
  | some tv =>
    rw [hp] at h
    simp only [decide_eq_true_eq] at h ⊢
    omega

theorem specWindowSum_mono (parse : String → Option Int) {cut1 cut2 : Int}
    (hc : cut2 ≤ cut1) (rs : List SavedReceipt)
    (hpos : ∀ r ∈ rs, 0 ≤ r.totalAmount) :
    specWindowSum parse cut1 rs ≤ specWindowSum parse cut2 rs := by
  induction rs with
  | nil => simp [specWindowSum]
  | cons r t ih =>
    rw [specWindowSum_cons, specWindowSum_cons]
    have hr : 0 ≤ r.totalAmount := hpos r (by simp)
    have ht := ih fun x hx => hpos x (by simp [hx])
    have hterm : (if dateGe parse cut1 r then r.totalAmount else 0)
        ≤ (if dateGe parse cut2 r then r.totalAmount else 0) := by
      by_cases h1 : dateGe parse cut1 r
      · rw [if_pos h1, if_pos (dateGe_mono parse hc r h1)]
      · rw [if_neg h1]
        by_cases h2 : dateGe parse cut2 r <;> simp [h2, hr]
    exact add_le_add hterm ht

theorem specWindowSum_nonneg (parse : String → Option Int) (cutoff : Int)
    (rs : List SavedReceipt) (hpos : ∀ r ∈ rs, 0 ≤ r.totalAmount) :
    0 ≤ specWindowSum parse cutoff rs := by
  induction rs with
  | nil => simp [specWindowSum]
  | cons r t ih =>
    rw [specWindowSum_cons]
    have hr : 0 ≤ r.totalAmount := hpos r (by simp)
    have ht := ih fun x hx => hpos x (by simp [hx])
    have : (0:ℚ) ≤ (if dateGe parse cutoff r then r.totalAmount else 0) := by
      by_cases h : dateGe parse cutoff r <;> simp [h, hr]
    linarith

theorem specWindowSum_le_total (parse : String → Option Int) (cutoff : Int)
    (rs : List SavedReceipt) (hpos : ∀ r ∈ rs, 0 ≤ r.totalAmount) :
    specWindowSum parse cutoff rs ≤ (rs.map fun r => r.totalAmount).sum := by
  induction rs with
  | nil => simp [specWindowSum]
  | cons r t ih =>
    rw [specWindowSum_cons]
    have hr : 0 ≤ r.totalAmount := hpos r (by simp)
    have ht := ih fun x hx => hpos x (by simp [hx])
    have : (if dateGe parse cutoff r then r.totalAmount else 0) ≤ r.totalAmount := by
      by_cases h : dateGe parse cutoff r <;> simp [h, hr]
    simp only [List.map_cons, List.sum_cons]
    linarith

end QuickReceipt

namespace QuickReceipt

/-! ### Helper lemmas: JS objects and the category fold -/

theorem objGet?_objSet_self {α : Type} (l : List (String × α)) (k : String) (v : α) :
    objGet? (objSet l k v) k = some v := by
  induction l with
  | nil => simp [objSet, objGet?]
  | cons p t ih =>
    obtain ⟨pk, pv⟩ := p
    by_cases h : pk = k
    · simp [objSet, h, objGet?]
    · simp [objSet, h, objGet?, ih]

theorem objGet?_objSet_ne {α : Type} (l : List (String × α)) (k c : String) (v : α)
    (h : k ≠ c) : objGet? (objSet l k v) c = objGet? l c := by
  induction l with
  | nil => simp [objSet, objGet?, h]
  | cons p t ih =>
    obtain ⟨pk, pv⟩ := p
    by_cases hk : pk = k
    · subst hk
      simp only [objSet, if_pos rfl, objGet?, if_neg h]
    · simp only [objSet, if_neg hk, objGet?]
      by_cases hc : pk = c
      · rw [if_pos hc, if_pos hc]
      · rw [if_neg hc, if_neg hc, ih]

theorem objKeys_objSet {α : Type} (l : List (String × α)) (k : String) (v : α) :
    objKeys (objSet l k v)
      = if k ∈ objKeys l then objKeys l else objKeys l ++ [k] := by
  induction l with
  | nil => simp [objSet, objKeys]
  | cons p t ih =>
    obtain ⟨pk, pv⟩ := p
    by_cases hk : pk = k
    · subst hk
      simp [objSet, objKeys]
    · simp only [objSet, if_neg hk, objKeys, List.map_cons]
      simp only [objKeys] at ih
      rw [ih]
      by_cases hmem : k ∈ List.map Prod.fst t
      · rw [if_pos hmem, if_pos (by simp [List.mem_cons, hmem])]
      · rw [if_neg hmem,
          if_neg (by simp [List.mem_cons, hmem, Ne.symm hk]),
          List.cons_append]

theorem mem_objKeys_objSet {α : Type} (l : List (String × α)) (k c : String) (v : α) :
    c ∈ objKeys (objSet l k v) ↔ c ∈ objKeys l ∨ c = k := by
  rw [objKeys_objSet]
  by_cases hmem : k ∈ objKeys l
  · rw [if_pos hmem]
    constructor
    · exact Or.inl
    · rintro (h | h)
      · exact h
      · exact h ▸ hmem
  · rw [if_neg hmem]
    simp [List.mem_append]

theorem objKeys_nodup_objSet {α : Type} (l : List (String × α)) (k : String) (v : α)
    (h : (objKeys l).Nodup) : (objKeys (objSet l k v)).Nodup := by
  rw [objKeys_objSet]
  by_cases hmem : k ∈ objKeys l
  · simpa [hmem] using h
  · simp only [hmem, if_false]
    simpa [List.nodup_append] using ⟨h, hmem⟩

theorem mem_objKeys_iff_get? {α : Type} (l : List (String × α)) (c : String) :
    c ∈ objKeys l ↔ ∃ v, objGet? l c = some v := by
  induction l with
  | nil => simp [objKeys, objGet?]
  | cons p t ih =>
    obtain ⟨pk, pv⟩ := p
    simp only [objKeys, List.map_cons, List.mem_cons, objGet?]
    simp only [objKeys] at ih
    by_cases h : pk = c
    · subst h
      simp
    · rw [if_neg h]
      constructor
      · rintro (hc | hc)
        · exact absurd hc.symm h
        · exact ih.mp hc
      · intro hv
        exact Or.inr (ih.mpr hv)

theorem mem_iff_objGet? {α : Type} (l : List (String × α))
    (h : (objKeys l).Nodup) (c : String) (v : α) :
    (c, v) ∈ l ↔ objGet? l c = some v := by
  induction l with
  | nil => simp [objGet?]
  | cons p t ih =>
    obtain ⟨pk, pv⟩ := p
    simp only [objKeys, List.map_cons, List.nodup_cons] at h
    simp only [objGet?, List.mem_cons, Prod.mk.injEq]
    by_cases hk : pk = c
    · subst hk
      rw [if_pos rfl]
      constructor
      · rintro (⟨-, rfl⟩ | hmem)
        · rfl
        · exact absurd (List.mem_map_of_mem Prod.fst hmem) h.1
      · intro hv
        exact Or.inl ⟨rfl, (Option.some_inj.mp hv).symm⟩
    · rw [if_neg hk, ← ih h.2]
      constructor
      · rintro (⟨hc, -⟩ | hmem)
        · exact absurd hc.symm hk
        · exact hmem
      · exact Or.inr

theorem sndSum_objSet (l : List (String × ℚ)) (k : String) (a : ℚ) :
    ((objSet l k ((objGet? l k).getD 0 + a)).map Prod.snd).sum
      = (l.map Prod.snd).sum + a := by
  induction l with
  | nil => simp [objSet, objGet?]
  | cons p t ih =>
    obtain ⟨pk, pv⟩ := p
    by_cases h : pk = k
    · subst h
      simp [objGet?, objSet]
      ring
    · simp only [objGet?, if_neg h, objSet, List.map_cons, List.sum_cons]
      rw [ih]
      ring

theorem sndSum_catStep (acc : List (String × ℚ)) (r : SavedReceipt) :
    ((catStep acc r).map Prod.snd).sum = (acc.map Prod.snd).sum + r.totalAmount := by
  unfold catStep
  exact sndSum_objSet acc r.category r.totalAmount

theorem catTotals_sndSum_aux (rs : List SavedReceipt) :
    ∀ acc : List (String × ℚ),
      ((rs.foldl catStep acc).map Prod.snd).sum
        = (acc.map Prod.snd).sum + (rs.map fun r => r.totalAmount).sum := by
  induction rs with
  | nil => intro acc; simp
  | cons r t ih =>
    intro acc
    simp only [List.foldl_cons, List.map_cons, List.sum_cons]
    rw [ih (catStep acc r), sndSum_catStep]
    ring

theorem specCatSum_cons (r : SavedReceipt) (t : List SavedReceipt) (c : String) :
    specCatSum (r :: t) c
      = (if r.category = c then r.totalAmount else 0) + specCatSum t c := by
  unfold specCatSum
  by_cases h : r.category = c
  · rw [List.filter_cons_of_pos (by simpa using h), if_pos h]
    simp
  · rw [List.filter_cons_of_neg (by simpa using h), if_neg h]
    simp

theorem catTotals_get_aux (rs : List SavedReceipt) :
    ∀ (acc : List (String × ℚ)) (c : String),
      ((objGet? (rs.foldl catStep acc) c).getD 0)
        = (objGet? acc c).getD 0 + specCatSum rs c := by
  induction rs with
  | nil => intro acc c; simp [specCatSum]
  | cons r t ih =>
    intro acc c
    simp only [List.foldl_cons]
    rw [ih (catStep acc r) c, specCatSum_cons]
    unfold catStep
    by_cases h : r.category = c
    · subst h
      rw [objGet?_objSet_self, if_pos rfl]
      simp only [Option.getD_some]
      ring
    · rw [objGet?_objSet_ne _ _ _ _ h, if_neg h]
      ring

theorem catTotals_keys_aux (rs : List SavedReceipt) :
    ∀ (acc : List (String × ℚ)) (c : String),
      (c ∈ objKeys (rs.foldl catStep acc)
        ↔ c ∈ objKeys acc ∨ ∃ r ∈ rs, r.category = c) := by
  induction rs with
  | nil => intro acc c; simp
  | cons r t ih =>
    intro acc c
    simp only [List.foldl_cons]
    rw [ih (catStep acc r) c]
    unfold catStep
    rw [mem_objKeys_objSet]
    simp only [List.mem_cons]
    constructor
    · rintro ((h | h) | h)
      · exact Or.inl h
      · exact Or.inr ⟨r, Or.inl rfl, h.symm⟩
      · obtain ⟨x, hx, hcat⟩ := h
        exact Or.inr ⟨x, Or.inr hx, hcat⟩
    · rintro (h | ⟨x, hx | hx, hcat⟩)
      · exact Or.inl (Or.inl h)
      · subst hx
        exact Or.inl (Or.inr hcat.symm)
      · exact Or.inr ⟨x, hx, hcat⟩

theorem catTotals_keys_nodup_aux (rs : List SavedReceipt) :
    ∀ acc : List (String × ℚ),
      (objKeys acc).Nodup → (objKeys (rs.foldl catStep acc)).Nodup := by
  induction rs with
  | nil => intro acc h; simpa using h
  | cons r t ih =>
    intro acc h
    simp only [List.foldl_cons]
    exact ih (catStep acc r) (objKeys_nodup_objSet _ _ _ h)

theorem catTotals_get (rs : List SavedReceipt) (c : String) :
    (objGet? (categoryTotals rs) c).getD 0 = specCatSum rs c := by
  simpa [categoryTotals, objGet?] using catTotals_get_aux rs [] c

theorem catTotals_keys (rs : List SavedReceipt) (c : String) :
    c ∈ objKeys (categoryTotals rs) ↔ ∃ r ∈ rs, r.category = c := by
  simpa [categoryTotals, objKeys] using catTotals_keys_aux rs [] c

theorem catTotals_nodup (rs : List SavedReceipt) :
    (objKeys (categoryTotals rs)).Nodup := by
  exact catTotals_keys_nodup_aux rs [] (by simp [objKeys])

theorem catTotals_mem (rs : List SavedReceipt) (c : String) (v : ℚ) :
    (c, v) ∈ categoryTotals rs
      ↔ (∃ r ∈ rs, r.category = c) ∧ v = specCatSum rs c := by
  rw [mem_iff_objGet? _ (catTotals_nodup rs)]
  constructor
  · intro h
    have hk : c ∈ objKeys (categoryTotals rs) :=
      (mem_objKeys_iff_get? _ _).mpr ⟨v, h⟩
    refine ⟨(catTotals_keys rs c).mp hk, ?_⟩
    have hval := catTotals_get rs c
    rw [h] at hval
    simpa using hval
  · rintro ⟨hex, rfl⟩
    have hk : c ∈ objKeys (categoryTotals rs) := (catTotals_keys rs c).mpr hex
    obtain ⟨v, hv⟩ := (mem_objKeys_iff_get? _ _).mp hk
    have hval := catTotals_get rs c
    rw [hv] at hval
    simp only [Option.getD_some] at hval
    rw [hv, hval]

end QuickReceipt

namespace QuickReceipt

/-! ### Helper lemmas: decimal rendering of Date.now() is injective -/

theorem decChar_digitChar (d : Nat) (h : d < 10) :
    decChar (Nat.digitChar d) = d := by
  interval_cases d <;> decide

theorem decList_toDigitsCore (fuel : Nat) :
    ∀ (n : Nat) (ds : List Char), n < 10 ^ fuel →
      decList (Nat.toDigitsCore 10 fuel n ds)
        = n * 10 ^ ds.length + decList ds := by
  induction fuel with
  | zero =>
    intro n ds h
    have hn : n = 0 := by omega
    subst hn
    simp [Nat.toDigitsCore]
  | succ f ih =>
    intro n ds h
    show decList (if n / 10 = 0 then Nat.digitChar (n % 10) :: ds
        else Nat.toDigitsCore 10 f (n / 10) (Nat.digitChar (n % 10) :: ds))
      = n * 10 ^ ds.length + decList ds
    by_cases h0 : n / 10 = 0
    · rw [if_pos h0]
      have hn10 : n < 10 := by omega
      have hmod : n % 10 = n := Nat.mod_eq_of_lt hn10
      simp only [decList, hmod, decChar_digitChar n hn10]
    · rw [if_neg h0]
      have hdiv : n / 10 < 10 ^ f := by
        have h10 : (0:Nat) < 10 := by norm_num
        rw [Nat.div_lt_iff_lt_mul h10]
        calc n < 10 ^ (f + 1) := h
          _ = 10 ^ f * 10 := by ring
      rw [ih (n / 10) (Nat.digitChar (n % 10) :: ds) hdiv]
      simp only [decList, List.length_cons,
        decChar_digitChar (n % 10) (Nat.mod_lt n (by norm_num))]
      calc n / 10 * 10 ^ (ds.length + 1) + (n % 10 * 10 ^ ds.length + decList ds)
          = (10 * (n / 10) + n % 10) * 10 ^ ds.length + decList ds := by ring
        _ = n * 10 ^ ds.length + decList ds := by rw [Nat.div_add_mod]

theorem decList_natRepr (n : Nat) : decList (Nat.repr n).data = n := by
  have hlt : n < 10 ^ (n + 1) := by
    calc n < 2 ^ n := Nat.lt_two_pow n
      _ ≤ 2 ^ (n + 1) := Nat.pow_le_pow_right (by norm_num) (Nat.le_succ n)
      _ ≤ 10 ^ (n + 1) := Nat.pow_le_pow_left (by norm_num) (n + 1)
  have hcore := decList_toDigitsCore (n + 1) n [] hlt
  simpa [Nat.repr, Nat.toDigits, List.asString, decList] using hcore

theorem natRepr_injective : Function.Injective Nat.repr := by
  intro m n h
  have hm := decList_natRepr m
  rw [h, decList_natRepr] at hm
  exact hm.symm

/-! ### Helper lemmas: ids produced by the append lifetime -/

theorem appendRun_ids_aux (events : List (ReceiptData × Nat × String)) :
    ∀ st : List SavedReceipt,
      ((events.foldl (fun s e => appendReceipt s e.1 e.2.1 e.2.2) st).map fun r => r.id)
        = (st.map fun r => r.id) ++ (events.map fun e => Nat.repr e.2.1) := by
  induction events with
  | nil => intro st; simp
  | cons e t ih =>
    intro st
    simp only [List.foldl_cons, List.map_cons]
    rw [ih]
    simp [appendReceipt]

theorem appendRun_ids (events : List (ReceiptData × Nat × String)) :
    ((appendRun events).map fun r => r.id)
      = events.map fun e => Nat.repr e.2.1 := by
  simpa [appendRun] using appendRun_ids_aux events []

end QuickReceipt

namespace QuickReceipt

/-! ### Claim theorems -/

/-- C1: the Top Spending Category insight shows the FIRST key of the
category-totals object, not the category of highest summed total.  On
two records, Food for 1 then Transport for 100, the insight reads Food
even though Transport has the strictly larger total; on an empty store
it does read the sentinel. -/
theorem c1_topCategory_first_not_max :
    topCategoryInsight (categoryTotals c1Receipts) = "Food" ∧
    specCatSum c1Receipts "Food" < specCatSum c1Receipts "Transport" ∧
    ("Transport", specCatSum c1Receipts "Transport") ∈ categoryTotals c1Receipts ∧
    topCategoryInsight (categoryTotals ([] : List SavedReceipt)) = "N/A" := by
  have hct : categoryTotals c1Receipts = [("Food", 1), ("Transport", 100)] := by
    simp [categoryTotals, c1Receipts, catStep, objSet, objGet?,
      List.foldl_cons, List.foldl_nil]
  have hf : specCatSum c1Receipts "Food" = 1 := by
    simp [specCatSum, c1Receipts, List.filter]
  have ht : specCatSum c1Receipts "Transport" = 100 := by
    simp [specCatSum, c1Receipts, List.filter]
  refine ⟨?_, ?_, ?_, rfl⟩
  · rw [hct]
    rfl
  · rw [hf, ht]
    norm_num
  · rw [hct, ht]
    simp

/-- C2: on a source image that cannot be decoded, optimizeImage leaves
its promise pending forever: it neither resolves nor rejects, so no
ImageDecodeError (nor any other failure signal) is ever produced. -/
theorem c2_undecodable_never_settles :
    optimizeImage ImageSource.undecodable = PromiseState.pending ∧
    (∀ msg, optimizeImage ImageSource.undecodable ≠ PromiseState.rejected msg) ∧
    (∀ p, optimizeImage ImageSource.undecodable ≠ PromiseState.resolved p) := by
  refine ⟨rfl, ?_, ?_⟩ <;> intro x <;> simp [optimizeImage]

/-- C3 (amended): a service response body that is not valid JSON makes
the route answer 500 with the dedicated parse-error message, the
client surfaces the retry prompt, and the store is unchanged. -/
theorem c3_notJson_no_append (store : List RawSaved) (raw : String)
    (idStr ts : String) :
    routePOST true (AiContent.notJson raw)
        = ⟨500, [("error", JVal.str "Invalid JSON response from AI")]⟩ ∧
    handleImageUpload store (routePOST true (AiContent.notJson raw)) idStr ts
        = (store, some "Failed to scan receipt. Please try again.") := by
  refine ⟨rfl, ?_⟩
  simp [handleImageUpload, routePOST]

/-- C3 counterexample: a body that is valid JSON but lacks every
required field is answered with status 200 and a record IS appended to
the store (with all four extracted fields absent), refuting the claim
that a missing required field yields a parse error with the store
unchanged. -/
theorem c3_missing_fields_appends :
    (routePOST true (AiContent.jsonObj [])).status = 200 ∧
    (handleImageUpload [] (routePOST true (AiContent.jsonObj [])) "1" "t").1
      = [{ id := "1", timestamp := "t", merchantName := none, date := none,
           totalAmount := none, category := none }] := by
  refine ⟨rfl, ?_⟩
  simp [handleImageUpload, routePOST, objGet?]

/-- C4 (amended): ids are pairwise distinct across the whole lifetime
of the store provided the Date.now() instants of the appends are
pairwise distinct. -/
theorem c4_ids_distinct_of_distinct_instants
    (events : List (ReceiptData × Nat × String))
    (h : (events.map fun e => e.2.1).Nodup) :
    ((appendRun events).map fun r => r.id).Nodup := by
  rw [appendRun_ids]
  have hmap : (events.map fun e => Nat.repr e.2.1)
      = (events.map fun e => e.2.1).map Nat.repr := by
    rw [List.map_map]
    rfl
  rw [hmap]
  exact h.map natRepr_injective

/-- Witness for C4: two appends at distinct instants get distinct ids. -/
theorem c4_ids_distinct_witness :
    (([(sampleData, 1000, "t1"), (sampleData, 1001, "t2")].map
        fun e : ReceiptData × Nat × String => e.2.1).Nodup) ∧
    ((appendRun [(sampleData, 1000, "t1"), (sampleData, 1001, "t2")]).map
        fun r => r.id).Nodup :=
  ⟨by decide, c4_ids_distinct_of_distinct_instants _ (by decide)⟩

/-- C4 counterexample: two appends at the same Date.now() instant get
the same id, so id uniqueness fails for same-instant appends. -/
theorem c4_same_instant_ids_collide :
    ¬ ((appendRun [(sampleData, 1000, "t1"), (sampleData, 1000, "t2")]).map
        fun r => r.id).Nodup := by
  decide

end QuickReceipt

namespace QuickReceipt

theorem resizeDims_wide (w h : ℚ) (h1 : h < w) (h2 : 1200 < w) :
    resizeDims w h = (1200, h * (1200 / w)) := by
  simp only [resizeDims]
  rw [if_pos h1, if_pos h2]

theorem resizeDims_wide_small (w h : ℚ) (h1 : h < w) (h2 : ¬ 1200 < w) :
    resizeDims w h = (w, h) := by
  simp only [resizeDims]
  rw [if_pos h1, if_neg h2]

theorem resizeDims_tall (w h : ℚ) (h1 : ¬ h < w) (h2 : 1200 < h) :
    resizeDims w h = (w * (1200 / h), 1200) := by
  simp only [resizeDims]
  rw [if_neg h1, if_pos h2]

theorem resizeDims_tall_small (w h : ℚ) (h1 : ¬ h < w) (h2 : ¬ 1200 < h) :
    resizeDims w h = (w, h) := by
  simp only [resizeDims]
  rw [if_neg h1, if_neg h2]

/-- C5: when either input dimension exceeds 1200 the resized output
has its longer edge exactly 1200 and preserves the aspect ratio
exactly (stated cross-multiplied); when both dimensions are at most
1200 the output equals the input, so no upscaling occurs. -/
theorem c5_resize_clamps_longer_edge (w h : ℚ) :
    (1200 < max w h →
      max (resizeDims w h).1 (resizeDims w h).2 = 1200 ∧
      (resizeDims w h).2 * w = h * (resizeDims w h).1) ∧
    (w ≤ 1200 → h ≤ 1200 → resizeDims w h = (w, h)) := by
  constructor
  · intro hmax
    by_cases h1 : h < w
    · have h2 : 1200 < w := by
        rw [max_eq_left (le_of_lt h1)] at hmax
        exact hmax
      rw [resizeDims_wide w h h1 h2]
      have hw0 : (0:ℚ) < w := by linarith
      have e1 : w * (1200 / w) = 1200 := by
        rw [mul_comm]
        exact div_mul_cancel₀ _ hw0.ne'
      constructor
      · have hle : h * (1200 / w) ≤ w * (1200 / w) :=
          mul_le_mul_of_nonneg_right (le_of_lt h1) (by positivity)
        rw [e1] at hle
        exact max_eq_left hle
      · show h * (1200 / w) * w = h * 1200
        calc h * (1200 / w) * w = h * (1200 / w * w) := by ring
          _ = h * 1200 := by rw [div_mul_cancel₀ _ hw0.ne']
    · have h2 : 1200 < h := by
        rw [max_eq_right (le_of_not_lt h1)] at hmax
        exact hmax
      rw [resizeDims_tall w h h1 h2]
      have hh0 : (0:ℚ) < h := by linarith
      have e2 : h * (1200 / h) = 1200 := by
        rw [mul_comm]
        exact div_mul_cancel₀ _ hh0.ne'
      constructor
      · have hle : w * (1200 / h) ≤ h * (1200 / h) :=
          mul_le_mul_of_nonneg_right (le_of_not_lt h1) (by positivity)
        rw [e2] at hle
        exact max_eq_right hle
      · show (1200:ℚ) * w = h * (w * (1200 / h))
        calc (1200:ℚ) * w = (h * (1200 / h)) * w := by rw [e2]
          _ = h * (w * (1200 / h)) := by ring
  · intro hw hh
    by_cases h1 : h < w
    · rw [resizeDims_wide_small w h h1 (not_lt.mpr hw)]
    · rw [resizeDims_tall_small w h h1 (not_lt.mpr hh)]

/-- Witness for C5: a 2400 by 1200 image is clamped to 1200 by 600
with the exact cross ratio, and an 800 by 600 image is untouched. -/
theorem c5_resize_witness :
    ((1200:ℚ) < max 2400 1200 ∧
      max (resizeDims 2400 1200).1 (resizeDims 2400 1200).2 = 1200 ∧
      (resizeDims 2400 1200).2 * 2400 = 1200 * (resizeDims 2400 1200).1) ∧
    ((800:ℚ) ≤ 1200 ∧ (600:ℚ) ≤ 1200 ∧ resizeDims 800 600 = (800, 600)) := by
  have hmax : (1200:ℚ) < max 2400 1200 := by
    rw [max_eq_left (by norm_num)]
    norm_num
  refine ⟨⟨hmax, (c5_resize_clamps_longer_edge 2400 1200).1 hmax⟩,
    by norm_num, by norm_num,
    (c5_resize_clamps_longer_edge 800 600).2 (by norm_num) (by norm_num)⟩

/-- C6: the export has exactly three sheets; the first holds one row
per record in store order with columns Date, Merchant, Category and
Amount; the second holds the Weekly, Monthly and Yearly totals; the
third holds exactly one row per category present in the store,
carrying that category's summed total. -/
theorem c6_export_three_sheets (parse : String → Option Int) (now : Int)
    (rs : List SavedReceipt) :
    (exportToExcel parse now rs).length = 3 ∧
    exportToExcel parse now rs
      = [("Receipts", rs.map fun r =>
            [Cell.s r.date, Cell.s r.merchantName, Cell.s r.category,
             Cell.q r.totalAmount]),
         ("Analytics",
            [[Cell.s "Weekly",
              Cell.q (specWindowSum parse (now - 7 * 24 * 60 * 60 * 1000) rs)],
             [Cell.s "Monthly",
              Cell.q (specWindowSum parse (now - 30 * 24 * 60 * 60 * 1000) rs)],
             [Cell.s "Yearly",
              Cell.q (specWindowSum parse (now - 365 * 24 * 60 * 60 * 1000) rs)]]),
         ("Categories", categoriesRows rs)] ∧
    (∀ c t, [Cell.s c, Cell.q t] ∈ categoriesRows rs
        ↔ (∃ r ∈ rs, r.category = c) ∧ t = specCatSum rs c) ∧
    (∀ row ∈ categoriesRows rs, ∃ c t, row = [Cell.s c, Cell.q t]) ∧
    (objKeys (categoryTotals rs)).Nodup := by
  refine ⟨rfl, ?_, ?_, ?_, catTotals_nodup rs⟩
  · simp only [exportToExcel, receiptsRows, analyticsRows, calculateAnalytics,
      windowSum_eq]
  · intro c t
    simp only [categoriesRows, List.mem_map]
    constructor
    · rintro ⟨p, hp, he⟩
      simp only [List.cons.injEq, Cell.s.injEq, Cell.q.injEq, and_true] at he
      obtain ⟨h1, h2⟩ := he
      rw [← h1, ← h2]
      exact (catTotals_mem rs p.1 p.2).mp (by simpa using hp)
    · rintro ⟨hex, rfl⟩
      exact ⟨(c, specCatSum rs c),
        (catTotals_mem rs c (specCatSum rs c)).mpr ⟨hex, rfl⟩, rfl⟩
  · intro row hrow
    simp only [categoriesRows, List.mem_map] at hrow
    obtain ⟨p, -, rfl⟩ := hrow
    exact ⟨p.1, p.2, rfl⟩

/-- Witness for C6: the export of the two-record store has three
sheets, and its Categories sheet carries the Transport row with the
summed total. -/
theorem c6_export_witness :
    (exportToExcel parseAtEpoch 0 c1Receipts).length = 3 ∧
    ([Cell.s "Transport", Cell.q (specCatSum c1Receipts "Transport")]
      ∈ categoriesRows c1Receipts) :=
  ⟨(c6_export_three_sheets parseAtEpoch 0 c1Receipts).1,
    ((c6_export_three_sheets parseAtEpoch 0 c1Receipts).2.2.1 "Transport"
        (specCatSum c1Receipts "Transport")).mpr
      ⟨⟨{ merchantName := "Beta Shop", date := "2024-01-02", totalAmount := 100,
          category := "Transport", id := "2", timestamp := "t2" },
        by simp [c1Receipts], rfl⟩, rfl⟩⟩

end QuickReceipt

namespace QuickReceipt

/-- C7: over a non-empty store whose dates all parse and fall within
the last year and whose amounts are non-negative, the windowed sums
nest: weekly is at most monthly, monthly at most yearly. -/
theorem c7_windows_monotone (parse : String → Option Int) (now : Int)
    (rs : List SavedReceipt) (hne : rs ≠ [])
    (hdates : ∀ r ∈ rs, ∃ t, parse r.date = some t ∧
        now - 365 * 24 * 60 * 60 * 1000 ≤ t ∧ t ≤ now)
    (hpos : ∀ r ∈ rs, 0 ≤ r.totalAmount) :
    (calculateAnalytics parse now rs).weekly
        ≤ (calculateAnalytics parse now rs).monthly ∧
    (calculateAnalytics parse now rs).monthly
        ≤ (calculateAnalytics parse now rs).yearly := by
  constructor
  · show sumAmounts (rs.filter (dateGe parse (now - 7 * 24 * 60 * 60 * 1000)))
        ≤ sumAmounts (rs.filter (dateGe parse (now - 30 * 24 * 60 * 60 * 1000)))
    rw [windowSum_eq, windowSum_eq]
    exact specWindowSum_mono parse (by linarith) rs hpos
  · show sumAmounts (rs.filter (dateGe parse (now - 30 * 24 * 60 * 60 * 1000)))
        ≤ sumAmounts (rs.filter (dateGe parse (now - 365 * 24 * 60 * 60 * 1000)))
    rw [windowSum_eq, windowSum_eq]
    exact specWindowSum_mono parse (by linarith) rs hpos

/-- Witness for C7 at a singleton store whose date parses to the
clock instant itself. -/
theorem c7_windows_monotone_witness :
    (calculateAnalytics parseAtEpoch 0 [sampleSaved]).weekly
        ≤ (calculateAnalytics parseAtEpoch 0 [sampleSaved]).monthly ∧
    (calculateAnalytics parseAtEpoch 0 [sampleSaved]).monthly
        ≤ (calculateAnalytics parseAtEpoch 0 [sampleSaved]).yearly :=
  c7_windows_monotone parseAtEpoch 0 [sampleSaved] (by simp)
    (fun r _ => ⟨0, rfl, by norm_num, le_refl 0⟩)
    (fun r hr => by
      rw [List.mem_singleton] at hr
      subst hr
      norm_num [sampleSaved])

/-- C8: each windowed sum computed by the aggregator equals the sum
of totalAmount over exactly the records whose date parses and lies on
or after the boundary instant (boundary inclusive); records with an
unparsable date contribute to none of the three sums, and the
computation is a total function. -/
theorem c8_unparsable_dates_excluded (parse : String → Option Int) (now : Int)
    (rs : List SavedReceipt) :
    (calculateAnalytics parse now rs).weekly
        = specWindowSum parse (now - 7 * 24 * 60 * 60 * 1000) rs ∧
    (calculateAnalytics parse now rs).monthly
        = specWindowSum parse (now - 30 * 24 * 60 * 60 * 1000) rs ∧
    (calculateAnalytics parse now rs).yearly
        = specWindowSum parse (now - 365 * 24 * 60 * 60 * 1000) rs := by
  refine ⟨?_, ?_, ?_⟩ <;> exact windowSum_eq _ _ _

/-- C9: given non-negative amounts, the Shopping Frequency insight
equals round(monthly / averagePurchase) when the average purchase is
positive and 0 otherwise, with averagePurchase the total spent divided
by the record count. -/
theorem c9_frequency_matches_spec (parse : String → Option Int) (now : Int)
    (rs : List SavedReceipt) (hpos : ∀ r ∈ rs, 0 ≤ r.totalAmount) :
    shoppingFrequency parse now rs = specShoppingFrequency parse now rs := by
  have hMspec : (calculateAnalytics parse now rs).monthly
      = specWindowSum parse (now - 30 * 24 * 60 * 60 * 1000) rs :=
    windowSum_eq _ _ _
  have hM0 : 0 ≤ (calculateAnalytics parse now rs).monthly := by
    rw [hMspec]
    exact specWindowSum_nonneg _ _ _ hpos
  have hMle : (calculateAnalytics parse now rs).monthly
      ≤ (rs.map fun r => r.totalAmount).sum := by
    rw [hMspec]
    exact specWindowSum_le_total _ _ _ hpos
  simp only [shoppingFrequency, specShoppingFrequency, specAveragePurchase]
  by_cases hMpos : 0 < (calculateAnalytics parse now rs).monthly
  · have hrs : rs ≠ [] := by
      rintro rfl
      rw [hMspec] at hMpos
      simp [specWindowSum] at hMpos
    have hlen : 0 < (rs.length : ℚ) := by
      have := List.length_pos.mpr hrs
      exact_mod_cast this
    have htot : 0 < (rs.map fun r => r.totalAmount).sum :=
      lt_of_lt_of_le hMpos hMle
    have havg : 0 < (rs.map fun r => r.totalAmount).sum / (rs.length : ℚ) :=
      div_pos htot hlen
    rw [if_pos hMpos, if_pos havg, sumAmounts_eq, if_neg (ne_of_gt havg)]
  · rw [if_neg hMpos]
    have hM : (calculateAnalytics parse now rs).monthly = 0 :=
      le_antisymm (not_lt.mp hMpos) hM0
    by_cases havg : 0 < ((rs.map fun r => r.totalAmount).sum / (rs.length : ℚ))
    · rw [if_pos havg, hM]
      have hhalf : ⌊(2⁻¹ : ℚ)⌋ = 0 := by
        rw [Int.floor_eq_iff]
        norm_num
      simp [jsRound, hhalf]
    · rw [if_neg havg]

/-- Witness for C9 at a singleton store with a positive amount. -/
theorem c9_frequency_witness :
    shoppingFrequency parseAtEpoch 0 [sampleSaved]
      = specShoppingFrequency parseAtEpoch 0 [sampleSaved] :=
  c9_frequency_matches_spec parseAtEpoch 0 [sampleSaved]
    (fun r hr => by
      rw [List.mem_singleton] at hr
      subst hr
      norm_num [sampleSaved])

/-- C10: the values of the category-totals mapping sum to the total
amount over all records: the category breakdown partitions the total
spent with no loss and no double counting. -/
theorem c10_categoryTotals_partition (parse : String → Option Int) (now : Int)
    (rs : List SavedReceipt) :
    (((calculateAnalytics parse now rs).categoryTotals).map Prod.snd).sum
      = (rs.map fun r => r.totalAmount).sum := by
  show ((categoryTotals rs).map Prod.snd).sum = (rs.map fun r => r.totalAmount).sum
  have := catTotals_sndSum_aux rs []
  simpa [categoryTotals] using this

end QuickReceipt
